import Mathlib

/-!
Verification of the OpenBoard state container and its utility leaves.

JavaScript strings are modelled as lists of characters (`Str`); string
`length` is the list length (all characters involved lie in the basic
plane, where JS UTF-16 length agrees with the character count).
-/

namespace OpenBoard

/-- A JavaScript string, modelled as a list of characters. -/
abbrev Str := List Char

/-- The set of characters removed by `String.prototype.trim` in ECMAScript:
WhiteSpace (TAB, VT, FF, SP, NBSP, ZWNBSP and the Zs category) together with
LineTerminator (LF, CR, LS, PS). -/
def jsWhitespace (c : Char) : Bool :=
  c.toNat ∈ [0x0009, 0x000A, 0x000B, 0x000C, 0x000D, 0x0020, 0x00A0,
             0x1680, 0x2000, 0x2001, 0x2002, 0x2003, 0x2004, 0x2005,
             0x2006, 0x2007, 0x2008, 0x2009, 0x200A, 0x2028, 0x2029,
             0x202F, 0x205F, 0x3000, 0xFEFF]

/-- `String.prototype.trim`: drop leading and trailing whitespace. -/
def jsTrim (s : Str) : Str :=
  ((s.dropWhile jsWhitespace).reverse.dropWhile jsWhitespace).reverse

/-- `validateMessageContent` from `src/utils/typeGuards.ts`:
`content.trim().length > 0 && content.length <= 2000`.  Note that the upper
bound is checked on the untrimmed string. -/
def validateMessageContent (content : Str) : Bool :=
  decide (0 < (jsTrim content).length) && decide (content.length ≤ 2000)

example : validateMessageContent ("Hello world!").data = true := by decide
example : validateMessageContent ("").data = false := by decide
example : validateMessageContent ("   ").data = false := by decide

/-! ## Data model (`src/types`) -/

/-- A JavaScript `Date`, reduced to what the code observes: the local
calendar day (as a day index, so that equal days compare equal and
"yesterday" is one less) and the time of day in milliseconds. -/
structure JSDate where
  day : Int
  msOfDay : Nat
deriving DecidableEq

/-- `Theme` from `src/types`: `'light' | 'dark' | 'system'`. -/
inductive Theme where
  | light
  | dark
  | system
deriving DecidableEq

/-- Message discriminator from `src/types`: `'text' | 'system'`. -/
inductive MsgKind where
  | text
  | system
deriving DecidableEq

/-- `Channel` from `src/types`. -/
structure Channel where
  id : Str
  name : Str
  description : Str
  kind : Str
  createdAt : JSDate
  memberCount : Nat
deriving DecidableEq

/-- `Message` from `src/types`. -/
structure Message where
  id : Str
  channelId : Str
  userId : Str
  content : Str
  timestamp : JSDate
  kind : MsgKind
  editedAt : Option JSDate
deriving DecidableEq

/-- `CreateMessage` (`Omit<Message, 'id' | 'timestamp'>` as passed to
`addMessage`): the caller supplies author, content and kind. -/
structure CreateMessage where
  userId : Str
  content : Str
  kind : MsgKind
deriving DecidableEq

/-! ## JS objects used as string-keyed maps

`state.messages` is a plain JS object keyed by channel id.  It is modelled
as an insertion-ordered association list with unique keys; `m[k] || []` is
`getEntries`, and the spread update `{...m, [k]: v}` (which overwrites an
existing key in place or appends a fresh one) is `setEntry`. -/

/-- `m[k] || []`: the list stored under `k`, or `[]` when the key is absent. -/
def getEntries (m : List (Str × List Message)) (k : Str) : List Message :=
  (m.lookup k).getD []

/-- `{...m, [k]: v}`: replace the value at `k`, or append the binding. -/
def setEntry (m : List (Str × List Message)) (k : Str) (v : List Message) :
    List (Str × List Message) :=
  match m with
  | [] => [(k, v)]
  | (k', v') :: rest => if k' = k then (k, v) :: rest else (k', v') :: setEntry rest k v

/-- `AppState` from `src/types` (data fields only; the actions are the
functions below). -/
structure AppState where
  channels : List Channel
  activeChannelId : Option Str
  messages : List (Str × List Message)
  theme : Theme
  sidebarOpen : Bool
  searchQuery : Str
  isLoading : Bool
  error : Option Str
deriving DecidableEq

/-- The fixed error text set by `addMessage` on rejected content. -/
def invalidContentError : Str := ("Message content is invalid").data

/-- Builds the `Message` object constructed inside `addMessage`. -/
def mkNewMessage (newId : Str) (now : JSDate) (channelId : Str)
    (md : CreateMessage) : Message :=
  { id := newId, channelId := channelId, userId := md.userId,
    content := jsTrim md.content, timestamp := now, kind := md.kind,
    editedAt := none }

/-- `addMessage` from `src/stores/useAppStore.ts`.  The generated id
(`generateId()`) and the current instant (`new Date()`) are passed in as
`newId` and `now`; everything else follows the source: validate the raw
content, on failure set the fixed error and leave the rest of the state
alone, on success append the trimmed message under the channel key and
clear the error. -/
def addMessage (newId : Str) (now : JSDate) (channelId : Str)
    (md : CreateMessage) (s : AppState) : AppState :=
  if validateMessageContent md.content = false then
    { s with error := some invalidContentError }
  else
    let newMessage := mkNewMessage newId now channelId md
    let channelMessages := getEntries s.messages channelId
    { s with
      messages := setEntry s.messages channelId (channelMessages ++ [newMessage]),
      error := none }

/-- Looking up the key just written returns the written value. -/
theorem getEntries_setEntry_self (m : List (Str × List Message)) (k : Str)
    (v : List Message) : getEntries (setEntry m k v) k = v := by
  induction m with
  | nil => simp [getEntries, setEntry, List.lookup]
  | cons hd tl ih =>
    obtain ⟨k', v'⟩ := hd
    by_cases h : k' = k
    · simp [getEntries, setEntry, h, List.lookup]
    · have hb : (k == k') = false := beq_eq_false_iff_ne.mpr (Ne.symm h)
      simpa [getEntries, setEntry, h, List.lookup, hb] using ih

/-- Writing one key leaves every other key's value unchanged. -/
theorem getEntries_setEntry_other (m : List (Str × List Message)) (k k' : Str)
    (v : List Message) (hne : k' ≠ k) :
    getEntries (setEntry m k v) k' = getEntries m k' := by
  have hb : (k' == k) = false := beq_eq_false_iff_ne.mpr hne
  induction m with
  | nil => simp [getEntries, setEntry, List.lookup, hb]
  | cons hd tl ih =>
    obtain ⟨k0, v0⟩ := hd
    by_cases h : k0 = k
    · subst h
      simp [getEntries, setEntry, List.lookup, hb]
    · by_cases h' : k0 = k'
      · subst h'
        simp [getEntries, setEntry, h, List.lookup]
      · have hb : (k' == k0) = false := beq_eq_false_iff_ne.mpr (Ne.symm h')
        simpa [getEntries, setEntry, h, List.lookup, hb] using ih

/-- The store's initial state from `src/stores/useAppStore.ts`. -/
def initialState : AppState :=
  { channels := [], activeChannelId := none, messages := [],
    theme := Theme.light, sidebarOpen := true, searchQuery := [],
    isLoading := false, error := none }

/-- `dropWhile` leaves a `replicate` of a non-matching character intact. -/
theorem dropWhile_replicate_of_not (p : Char → Bool) (a : Char) (h : p a = false)
    (n : Nat) : (List.replicate n a).dropWhile p = List.replicate n a := by
  cases n with
  | zero => simp
  | succ n => simp [List.replicate_succ, List.dropWhile_cons, h]

/-- Trimming one leading space off a block of `'a'`s. -/
theorem jsTrim_space_replicate (n : Nat) :
    jsTrim (' ' :: List.replicate n 'a') = List.replicate n 'a' := by
  have hsp : jsWhitespace ' ' = true := by decide
  have ha : jsWhitespace 'a' = false := by decide
  simp [jsTrim, List.dropWhile_cons, hsp, dropWhile_replicate_of_not _ _ ha]

/-- On rejected content, `addMessage` only sets the fixed error. -/
theorem addMessage_of_invalid (newId : Str) (now : JSDate) (channelId : Str)
    (md : CreateMessage) (s : AppState)
    (hval : validateMessageContent md.content = false) :
    addMessage newId now channelId md s =
      { s with error := some invalidContentError } := by
  simp [addMessage, hval]

/-- On accepted content, `addMessage` appends the trimmed message under the
channel key and clears the error. -/
theorem addMessage_of_valid (newId : Str) (now : JSDate) (channelId : Str)
    (md : CreateMessage) (s : AppState)
    (hval : validateMessageContent md.content = true) :
    addMessage newId now channelId md s =
      { s with
        messages := setEntry s.messages channelId
          (getEntries s.messages channelId ++ [mkNewMessage newId now channelId md]),
        error := none } := by
  simp [addMessage, hval]

/-- C1 (counterexample).  The content `' ' ++ 'a'*2000` has trimmed length
2000 (so the claim's bound `0 < trim(c).length ≤ 2000` holds), yet
`validateMessageContent` rejects it — the source checks `content.length`,
not `content.trim().length`, against 2000 — and `addMessage` refuses it,
setting the fixed error and leaving the message map unchanged. -/
theorem claim_C1_counterexample :
    (0 < (jsTrim (' ' :: List.replicate 2000 'a')).length ∧
      (jsTrim (' ' :: List.replicate 2000 'a')).length ≤ 2000) ∧
    validateMessageContent (' ' :: List.replicate 2000 'a') = false ∧
    (addMessage ("m1").data ⟨0, 0⟩ ("general").data
        ⟨("u1").data, ' ' :: List.replicate 2000 'a', MsgKind.text⟩
        initialState).error = some invalidContentError ∧
    (addMessage ("m1").data ⟨0, 0⟩ ("general").data
        ⟨("u1").data, ' ' :: List.replicate 2000 'a', MsgKind.text⟩
        initialState).messages = initialState.messages := by
  have htrim := jsTrim_space_replicate 2000
  have hlen : (' ' :: List.replicate 2000 'a').length = 2001 := by
    rw [List.length_cons, List.length_replicate]
  have hval : validateMessageContent (' ' :: List.replicate 2000 'a') = false := by
    unfold validateMessageContent
    rw [hlen, show (decide ((2001 : Nat) ≤ 2000)) = false from rfl, Bool.and_false]
  refine ⟨⟨?_, ?_⟩, hval, ?_, ?_⟩
  · rw [htrim, List.length_replicate]
    exact Nat.zero_lt_succ _
  · rw [htrim, List.length_replicate]
  · rw [addMessage_of_invalid ("m1").data ⟨0, 0⟩ ("general").data
      ⟨("u1").data, ' ' :: List.replicate 2000 'a', MsgKind.text⟩ initialState hval]
  · rw [addMessage_of_invalid ("m1").data ⟨0, 0⟩ ("general").data
      ⟨("u1").data, ' ' :: List.replicate 2000 'a', MsgKind.text⟩ initialState hval]

/-- C1 (amended).  `validateMessageContent c` accepts exactly when
`0 < trim(c).length` and the *untrimmed* length satisfies
`c.length ≤ 2000`; and `addMessage` accepts — clears the error field and
appends exactly the trimmed message to the channel's list — exactly when
`validateMessageContent` accepts. -/
theorem claim_C1_trim_bounds (c : Str) :
    (validateMessageContent c = true ↔
      0 < (jsTrim c).length ∧ c.length ≤ 2000) ∧
    ∀ (newId : Str) (now : JSDate) (channelId userId : Str) (kind : MsgKind)
      (s : AppState),
      ((addMessage newId now channelId ⟨userId, c, kind⟩ s).error = none ↔
        validateMessageContent c = true) ∧
      (getEntries (addMessage newId now channelId ⟨userId, c, kind⟩ s).messages
          channelId =
        getEntries s.messages channelId ++
          [mkNewMessage newId now channelId ⟨userId, c, kind⟩] ↔
        validateMessageContent c = true) := by
  constructor
  · simp [validateMessageContent]
  · intro newId now channelId userId kind s
    by_cases hval : validateMessageContent c = true
    · rw [addMessage_of_valid _ _ _ _ _ hval]
      constructor
      · simp [hval]
      · simp [getEntries_setEntry_self, hval]
    · have hval' : validateMessageContent c = false := by
        simpa using hval
      rw [addMessage_of_invalid _ _ _ _ _ hval']
      constructor
      · simp [hval']
      · constructor
        · intro h
          have := congrArg List.length h
          simp at this
        · intro h
          exact absurd h hval

/-- C2.  On rejected content `addMessage` sets the fixed non-null error and
leaves the message map untouched; on accepted content it appends exactly one
message — whose content is the trimmed input — at the end of
`messages[channelId]` (absent keys read as `[]`, so the list is created),
leaves every other channel's list unchanged, and sets the error to null. -/
theorem claim_C2_addMessage_effects (newId : Str) (now : JSDate)
    (channelId : Str) (md : CreateMessage) (s : AppState) :
    (validateMessageContent md.content = false →
      (addMessage newId now channelId md s).messages = s.messages ∧
      (addMessage newId now channelId md s).error = some invalidContentError) ∧
    (validateMessageContent md.content = true →
      getEntries (addMessage newId now channelId md s).messages channelId =
        getEntries s.messages channelId ++ [mkNewMessage newId now channelId md] ∧
      (∀ ch, ch ≠ channelId →
        getEntries (addMessage newId now channelId md s).messages ch =
          getEntries s.messages ch) ∧
      (mkNewMessage newId now channelId md).content = jsTrim md.content ∧
      (addMessage newId now channelId md s).error = none) := by
  constructor
  · intro hval
    rw [addMessage_of_invalid _ _ _ _ _ hval]
    exact ⟨rfl, rfl⟩
  · intro hval
    rw [addMessage_of_valid _ _ _ _ _ hval]
    refine ⟨getEntries_setEntry_self _ _ _, ?_, rfl, rfl⟩
    intro ch hch
    exact getEntries_setEntry_other _ _ _ _ hch

/-- C2 (witness): a concrete accepted send appends the trimmed message and
clears the error, and a concrete rejected send leaves the map unchanged. -/
theorem claim_C2_addMessage_effects_witness :
    (addMessage ("m1").data ⟨0, 0⟩ ("general").data
        ⟨("u1").data, ("  hello  ").data, MsgKind.text⟩ initialState).error =
      none ∧
    getEntries (addMessage ("m1").data ⟨0, 0⟩ ("general").data
        ⟨("u1").data, ("  hello  ").data, MsgKind.text⟩ initialState).messages
        ("general").data =
      [mkNewMessage ("m1").data ⟨0, 0⟩ ("general").data
        ⟨("u1").data, ("  hello  ").data, MsgKind.text⟩] ∧
    (addMessage ("m1").data ⟨0, 0⟩ ("general").data
        ⟨("u1").data, ("   ").data, MsgKind.text⟩ initialState).messages =
      initialState.messages := by
  refine ⟨?_, ?_, ?_⟩
  · exact ((claim_C2_addMessage_effects ("m1").data ⟨0, 0⟩ ("general").data
      ⟨("u1").data, ("  hello  ").data, MsgKind.text⟩ initialState).2
      (by decide)).2.2.2
  · have h := ((claim_C2_addMessage_effects ("m1").data ⟨0, 0⟩ ("general").data
      ⟨("u1").data, ("  hello  ").data, MsgKind.text⟩ initialState).2
      (by decide)).1
    rw [h]
    rfl
  · exact ((claim_C2_addMessage_effects ("m1").data ⟨0, 0⟩ ("general").data
      ⟨("u1").data, ("   ").data, MsgKind.text⟩ initialState).1 (by decide)).1

/-! ## `loadMockData` (`src/stores/useAppStore.ts` with `src/data/mockData.ts`) -/

/-- The channel collection from `src/data/mockData.ts`.  `createdAt`
instants are encoded as (day index since 1970-01-01, milliseconds of
day). -/
def mockChannels : List Channel :=
  [ { id := ("general").data, name := ("General").data,
      description := ("General discussion and announcements").data,
      kind := ("public").data, createdAt := ⟨19723, 36000000⟩, memberCount := 6 },
    { id := ("tech").data, name := ("Tech Talk").data,
      description := ("Technical discussions, programming, and development").data,
      kind := ("public").data, createdAt := ⟨19724, 52200000⟩, memberCount := 4 },
    { id := ("random").data, name := ("Random").data,
      description := ("Off-topic conversations and casual chat").data,
      kind := ("public").data, createdAt := ⟨19725, 33300000⟩, memberCount := 5 },
    { id := ("announcements").data, name := ("Announcements").data,
      description := ("Important updates and company news").data,
      kind := ("public").data, createdAt := ⟨19723, 28800000⟩, memberCount := 6 },
    { id := ("project-alpha").data, name := ("Project Alpha").data,
      description := ("Private discussion for Project Alpha team").data,
      kind := ("private").data, createdAt := ⟨19727, 60300000⟩, memberCount := 3 } ]

/-- The settings object read back by `StorageManager.getSettings()`: the
optional fields stored under the settings key (`sidebarOpen`,
`lastActiveChannel`).  The theme lives under its own key and never appears
in this object in the source. -/
structure StorageData where
  sidebarOpen : Option Bool
  lastActiveChannel : Option Str
deriving DecidableEq

/-- JS `a || b` on an optional string `a`: `undefined` and the empty string
are falsy and fall through to `b`. -/
def jsOrStr (v : Option Str) (fallback : Option Str) : Option Str :=
  match v with
  | none => fallback
  | some s => if s = [] then fallback else some s

/-- `loadMockData` from `src/stores/useAppStore.ts`:
`settings.lastActiveChannel || mockChannels[0]?.id || null`, then replace
channels and messages wholesale and clear the loading flag.  The mock
message map is a parameter (`mockMessages` timestamps are computed from the
load instant in the source), as is the settings object returned by
`StorageManager.getSettings()`. -/
def loadMockData (mockMsgs : List (Str × List Message)) (settings : StorageData)
    (s : AppState) : AppState :=
  let defaultActiveChannel :=
    jsOrStr settings.lastActiveChannel (jsOrStr (mockChannels.head?.map Channel.id) none)
  { s with
    channels := mockChannels,
    messages := mockMsgs,
    activeChannelId := defaultActiveChannel,
    isLoading := false }

/-- C3 (counterexample).  With a persisted last-active channel `"ghost"`
that does not exist among the loaded channels, `loadMockData` sets the
active channel to `"ghost"` — not to the first loaded channel `"general"`
as the claim requires. -/
theorem claim_C3_counterexample :
    (loadMockData [] ⟨none, some ("ghost").data⟩ initialState).activeChannelId =
      some ("ghost").data ∧
    ("ghost").data ∉ mockChannels.map Channel.id ∧
    (mockChannels.map Channel.id).head? = some ("general").data ∧
    some ("ghost").data ≠ some ("general").data := by decide

/-- C3 (amended).  `loadMockData` sets the active channel to the persisted
last-active identifier whenever it is present and non-empty — with no
membership check against the loaded channels — otherwise to the first
loaded channel's identifier (here `"general"`; the mock channel list is
never empty, so the "else none" branch is unreachable); it loads the
channel and message collections and clears the loading flag. -/
theorem claim_C3_loadMockData (mockMsgs : List (Str × List Message))
    (settings : StorageData) (s : AppState) :
    (∀ la, settings.lastActiveChannel = some la → la ≠ [] →
      (loadMockData mockMsgs settings s).activeChannelId = some la) ∧
    ((settings.lastActiveChannel = none ∨ settings.lastActiveChannel = some []) →
      (loadMockData mockMsgs settings s).activeChannelId =
        (mockChannels.map Channel.id).head?) ∧
    (mockChannels.map Channel.id).head? = some ("general").data ∧
    (loadMockData mockMsgs settings s).isLoading = false ∧
    (loadMockData mockMsgs settings s).channels = mockChannels ∧
    (loadMockData mockMsgs settings s).messages = mockMsgs := by
  refine ⟨?_, ?_, by decide, rfl, rfl, rfl⟩
  · intro la hla hne
    simp [loadMockData, jsOrStr, hla, hne]
  · intro h
    rcases h with h | h <;> simp [loadMockData, jsOrStr, h, mockChannels]

/-- C3 (witness): a present non-empty persisted id is taken verbatim, and an
absent one falls back to the first mock channel. -/
theorem claim_C3_loadMockData_witness :
    (loadMockData [] ⟨none, some ("tech").data⟩ initialState).activeChannelId =
      some ("tech").data ∧
    (loadMockData [] ⟨none, none⟩ initialState).activeChannelId =
      some ("general").data := by
  constructor
  · exact (claim_C3_loadMockData [] ⟨none, some ("tech").data⟩ initialState).1
      ("tech").data rfl (by decide)
  · have h := (claim_C3_loadMockData [] ⟨none, none⟩ initialState).2.1 (Or.inl rfl)
    rw [h]
    decide

/-! ## `StorageManager` (`src/utils/storage.ts`)

`localStorage` is modelled as a string key–value store that can throw: each
primitive returns `Except Unit _`, with `.error ()` standing for a thrown
exception. The `throws` flag makes every access throw, which is the failure
scenario of the claim.  The `StorageManager` wrappers catch every `.error`
internally and are total Lean functions — the embedding of "no exception
escapes to the caller". -/

/-- Look up a key in the underlying store (`getItem`, `null` ↦ `none`). -/
def storeGet (items : List (Str × Str)) (k : Str) : Option Str :=
  items.lookup k

/-- Write a key in the underlying store, preserving key order. -/
def storeSet (items : List (Str × Str)) (k v : Str) : List (Str × Str) :=
  match items with
  | [] => [(k, v)]
  | (k', v') :: rest => if k' = k then (k, v) :: rest else (k', v') :: storeSet rest k v

/-- Delete a key from the underlying store (`removeItem`). -/
def storeRemove (items : List (Str × Str)) (k : Str) : List (Str × Str) :=
  items.filter (fun e => !(e.1 = k : Bool))

/-- The browser `localStorage` object: its contents, plus a flag making
every access throw (an unavailable or quota-restricted store). -/
structure LocalStorage where
  items : List (Str × Str)
  throws : Bool
deriving DecidableEq

/-- `localStorage.getItem`, which may throw. -/
def lsGetItem (ls : LocalStorage) (k : Str) : Except Unit (Option Str) :=
  if ls.throws then .error () else .ok (storeGet ls.items k)

/-- `localStorage.setItem`, which may throw. -/
def lsSetItem (ls : LocalStorage) (k v : Str) : Except Unit LocalStorage :=
  if ls.throws then .error () else .ok { ls with items := storeSet ls.items k v }

/-- `localStorage.removeItem`, which may throw. -/
def lsRemoveItem (ls : LocalStorage) (k : Str) : Except Unit LocalStorage :=
  if ls.throws then .error () else .ok { ls with items := storeRemove ls.items k }

/-- `STORAGE_KEYS.THEME`. -/
def themeKey : Str := ("openboard-theme").data

/-- `STORAGE_KEYS.SETTINGS`. -/
def settingsKey : Str := ("openboard-settings").data

/-- The probe key used by `isStorageAvailable`. -/
def storageTestKey : Str := ("__storage_test__").data

/-- `isValidTheme` from `src/utils/typeGuards.ts`. -/
def isValidTheme (s : Str) : Bool :=
  decide (s ∈ [("light").data, ("dark").data, ("system").data])

/-- The raw string stored for a theme value. -/
def themeToStr : Theme → Str
  | Theme.light => ("light").data
  | Theme.dark => ("dark").data
  | Theme.system => ("system").data

/-- Reading back a valid stored theme string. -/
def themeOfStr (s : Str) : Theme :=
  if s = ("dark").data then Theme.dark
  else if s = ("system").data then Theme.system
  else Theme.light

/-- The result of `JSON.parse` on the settings value, as the code inspects
it: either an object carrying the settings fields, or any non-object value
(including `null`), which the code maps to `{}`. -/
inductive JsonParsed where
  | obj (s : StorageData)
  | nonObject
deriving DecidableEq

/-- The JSON codec used for the settings object.  `parse` models
`JSON.parse` (which may throw) and `stringify` models `JSON.stringify`. -/
structure JsonCodec where
  parse : Str → Except Unit JsonParsed
  stringify : StorageData → Str

/-- `{...current, ...new}`: fields present in the update win. -/
def mergeSettings (current new : StorageData) : StorageData :=
  { sidebarOpen :=
      match new.sidebarOpen with
      | some b => some b
      | none => current.sidebarOpen,
    lastActiveChannel :=
      match new.lastActiveChannel with
      | some c => some c
      | none => current.lastActiveChannel }

namespace StorageManager

/-- `StorageManager.isStorageAvailable`: a no-op write/delete probe; any
throw yields `false`. -/
def isStorageAvailable (ls : LocalStorage) : Bool :=
  match lsSetItem ls storageTestKey storageTestKey with
  | .error _ => false
  | .ok ls' =>
    match lsRemoveItem ls' storageTestKey with
    | .error _ => false
    | .ok _ => true

/-- `StorageManager.getTheme`: stored valid theme string, else `'light'`;
unavailable store, a thrown read and an invalid value all fall back. -/
def getTheme (ls : LocalStorage) : Theme :=
  if isStorageAvailable ls = false then Theme.light
  else
    match lsGetItem ls themeKey with
    | .error _ => Theme.light
    | .ok none => Theme.light
    | .ok (some stored) =>
      if stored ≠ [] ∧ isValidTheme stored = true then themeOfStr stored
      else Theme.light

/-- `StorageManager.setTheme`: best-effort write, exceptions swallowed. -/
def setTheme (ls : LocalStorage) (t : Theme) : LocalStorage :=
  if isStorageAvailable ls = false then ls
  else
    match lsSetItem ls themeKey (themeToStr t) with
    | .error _ => ls
    | .ok ls' => ls'

/-- `StorageManager.getSettings`: parsed object, else `{}` on a missing key,
empty string, parse failure, non-object value or thrown read. -/
def getSettings (codec : JsonCodec) (ls : LocalStorage) : StorageData :=
  if isStorageAvailable ls = false then ⟨none, none⟩
  else
    match lsGetItem ls settingsKey with
    | .error _ => ⟨none, none⟩
    | .ok none => ⟨none, none⟩
    | .ok (some stored) =>
      if stored = [] then ⟨none, none⟩
      else
        match codec.parse stored with
        | .error _ => ⟨none, none⟩
        | .ok (JsonParsed.obj o) => o
        | .ok JsonParsed.nonObject => ⟨none, none⟩

/-- `StorageManager.setSettings`: read current settings, shallow-merge the
update over them, write back; exceptions swallowed. -/
def setSettings (codec : JsonCodec) (ls : LocalStorage) (p : StorageData) :
    LocalStorage :=
  if isStorageAvailable ls = false then ls
  else
    let current := getSettings codec ls
    let updated := mergeSettings current p
    match lsSetItem ls settingsKey (codec.stringify updated) with
    | .error _ => ls
    | .ok ls' => ls'

/-- `StorageManager.clearAll`: best-effort removal of both managed keys;
a throw keeps whatever state was reached. -/
def clearAll (ls : LocalStorage) : LocalStorage :=
  if isStorageAvailable ls = false then ls
  else
    match lsRemoveItem ls themeKey with
    | .error _ => ls
    | .ok ls1 =>
      match lsRemoveItem ls1 settingsKey with
      | .error _ => ls1
      | .ok ls2 => ls2

end StorageManager

/-- C4.  Against a store whose every access throws, `getTheme` still
returns `'light'`, `getSettings` still returns `{}`, and `setTheme`,
`setSettings` and `clearAll` return normally (total functions; every
internal `.error` is caught), leaving the store untouched — for any store
contents, any theme or settings argument and any JSON codec. -/
theorem claim_C4_storage_failure_containment (codec : JsonCodec)
    (items : List (Str × Str)) (t : Theme) (p : StorageData) :
    StorageManager.getTheme ⟨items, true⟩ = Theme.light ∧
    StorageManager.getSettings codec ⟨items, true⟩ = ⟨none, none⟩ ∧
    StorageManager.setTheme ⟨items, true⟩ t = ⟨items, true⟩ ∧
    StorageManager.setSettings codec ⟨items, true⟩ p = ⟨items, true⟩ ∧
    StorageManager.clearAll ⟨items, true⟩ = ⟨items, true⟩ := by
  have havail : StorageManager.isStorageAvailable ⟨items, true⟩ = false := by
    simp [StorageManager.isStorageAvailable, lsSetItem]
  refine ⟨?_, ?_, ?_, ?_, ?_⟩ <;>
    simp [StorageManager.getTheme, StorageManager.getSettings,
          StorageManager.setTheme, StorageManager.setSettings,
          StorageManager.clearAll, havail]

/-! ## Timestamp / message-grouping utilities (`src/utils/timestampUtils.ts`)

The date-fns calendar predicates compare local calendar days, which the
`JSDate` model carries as `day`.  `isToday`/`isYesterday` need the current
day, passed as `today`; the full `'EEEE, MMMM d, yyyy'` rendering is an
arbitrary function `fmt` of the date. -/

/-- date-fns `isSameDay`. -/
def isSameDay (a b : JSDate) : Bool :=
  decide (a.day = b.day)

/-- date-fns `isToday`, relative to the current day index `today`. -/
def isToday (today : Int) (d : JSDate) : Bool :=
  decide (d.day = today)

/-- date-fns `isYesterday`, relative to the current day index `today`. -/
def isYesterday (today : Int) (d : JSDate) : Bool :=
  decide (d.day = today - 1)

/-- `MessageItem`: a message or a date separator (`{type, date, label}`). -/
inductive MessageItem where
  | msg (m : Message)
  | sep (date : JSDate) (label : Str)
deriving DecidableEq

/-- `shouldShowDateSeparator`: always before the first message, otherwise
exactly when the calendar day changed. -/
def shouldShowDateSeparator (current : Message) (previous : Option Message) :
    Bool :=
  match previous with
  | none => true
  | some p => !(isSameDay current.timestamp p.timestamp)

/-- `formatDateSeparator`: `'Today'`, then `'Yesterday'`, then the full
date string, in that priority. -/
def formatDateSeparator (today : Int) (fmt : JSDate → Str) (d : JSDate) : Str :=
  if isToday today d then ("Today").data
  else if isYesterday today d then ("Yesterday").data
  else fmt d

/-- The loop body of `groupMessagesByDate`: walk the list keeping the
previous message (`messages[i-1]`), pushing a separator when
`shouldShowDateSeparator` says so and then the message itself. -/
def groupGo (today : Int) (fmt : JSDate → Str) :
    Option Message → List Message → List MessageItem
  | _, [] => []
  | prev, m :: rest =>
    (if shouldShowDateSeparator m prev then
      [MessageItem.sep m.timestamp (formatDateSeparator today fmt m.timestamp)]
    else []) ++ (MessageItem.msg m :: groupGo today fmt (some m) rest)

/-- `groupMessagesByDate` from `src/utils/timestampUtils.ts`. -/
def groupMessagesByDate (today : Int) (fmt : JSDate → Str)
    (messages : List Message) : List MessageItem :=
  if messages.isEmpty then [] else groupGo today fmt none messages

/-- The claim's reading of the grouping rule, per message: a separator
precedes the first message and any message whose calendar date differs from
the immediately preceding input message. -/
def sepClause (today : Int) (fmt : JSDate → Str) (prev : Option Message)
    (m : Message) : List MessageItem :=
  match prev with
  | none =>
    [MessageItem.sep m.timestamp (formatDateSeparator today fmt m.timestamp)]
  | some p =>
    if p.timestamp.day ≠ m.timestamp.day then
      [MessageItem.sep m.timestamp (formatDateSeparator today fmt m.timestamp)]
    else []

/-- The render sequence as the spec words it: each message, prefixed by its
separator clause, with the predecessor taken in original input order. -/
def specGroupMessagesByDate (today : Int) (fmt : JSDate → Str)
    (msgs : List Message) : List MessageItem :=
  (msgs.zip (none :: msgs.map some)).flatMap
    (fun p => sepClause today fmt p.2 p.1 ++ [MessageItem.msg p.1])

/-- The source loop agrees with the spec-side per-message description, for
any starting predecessor. -/
theorem groupGo_eq_spec (today : Int) (fmt : JSDate → Str)
    (msgs : List Message) :
    ∀ prev, groupGo today fmt prev msgs =
      (msgs.zip (prev :: msgs.map some)).flatMap
        (fun p => sepClause today fmt p.2 p.1 ++ [MessageItem.msg p.1]) := by
  induction msgs with
  | nil => intro prev; rfl
  | cons m rest ih =>
    intro prev
    have hclause :
        (if shouldShowDateSeparator m prev then
          [MessageItem.sep m.timestamp (formatDateSeparator today fmt m.timestamp)]
        else []) = sepClause today fmt prev m := by
      cases prev with
      | none => rfl
      | some p =>
        by_cases hday : p.timestamp.day = m.timestamp.day
        · simp [shouldShowDateSeparator, isSameDay, sepClause, hday]
        · simp [shouldShowDateSeparator, isSameDay, sepClause, hday, Ne.symm hday]
    calc groupGo today fmt prev (m :: rest)
        = sepClause today fmt prev m ++
            (MessageItem.msg m :: groupGo today fmt (some m) rest) := by
          rw [groupGo, hclause]
      _ = (sepClause today fmt prev m ++ [MessageItem.msg m]) ++
            groupGo today fmt (some m) rest := by
          rw [List.append_assoc]; rfl
      _ = ((m, prev) :: rest.zip (some m :: rest.map some)).flatMap
            (fun p => sepClause today fmt p.2 p.1 ++ [MessageItem.msg p.1]) := by
          rw [ih (some m)]; rfl

/-- C5.  `groupMessagesByDate` maps `[]` to `[]` and `[m]` to
`[separator, m]`; in general it emits, per input message in order, a
separator exactly when the message is first or its calendar day differs
from its predecessor, followed by the message; and the separator label is
`'Today'`, then `'Yesterday'`, then the full date string, in that
priority. -/
theorem claim_C5_groupMessagesByDate (today : Int) (fmt : JSDate → Str)
    (m : Message) (msgs : List Message) :
    groupMessagesByDate today fmt [] = [] ∧
    groupMessagesByDate today fmt [m] =
      [MessageItem.sep m.timestamp (formatDateSeparator today fmt m.timestamp),
       MessageItem.msg m] ∧
    groupMessagesByDate today fmt msgs = specGroupMessagesByDate today fmt msgs ∧
    (∀ d : JSDate, d.day = today →
      formatDateSeparator today fmt d = ("Today").data) ∧
    (∀ d : JSDate, d.day ≠ today → d.day = today - 1 →
      formatDateSeparator today fmt d = ("Yesterday").data) ∧
    (∀ d : JSDate, d.day ≠ today → d.day ≠ today - 1 →
      formatDateSeparator today fmt d = fmt d) := by
  refine ⟨rfl, rfl, ?_, ?_, ?_, ?_⟩
  · cases msgs with
    | nil => rfl
    | cons m0 rest =>
      rw [groupMessagesByDate, if_neg (by simp), specGroupMessagesByDate,
        groupGo_eq_spec, List.map_cons]
  · intro d hd
    simp [formatDateSeparator, isToday, hd]
  · intro d hd hd'
    simp [formatDateSeparator, isToday, isYesterday, hd, hd']
  · intro d hd hd'
    simp [formatDateSeparator, isToday, isYesterday, hd, hd']

/-- Sample message for the C5 witness: yesterday, first of its day. -/
def wMsgA : Message :=
  { id := ("a").data, channelId := ("g").data, userId := ("u").data,
    content := ("x").data, timestamp := ⟨-1, 10⟩, kind := MsgKind.text,
    editedAt := none }

/-- Sample message for the C5 witness: same day as `wMsgA`. -/
def wMsgB : Message :=
  { id := ("b").data, channelId := ("g").data, userId := ("u").data,
    content := ("y").data, timestamp := ⟨-1, 20⟩, kind := MsgKind.text,
    editedAt := none }

/-- Sample message for the C5 witness: the current day. -/
def wMsgC : Message :=
  { id := ("c").data, channelId := ("g").data, userId := ("u").data,
    content := ("z").data, timestamp := ⟨0, 5⟩, kind := MsgKind.text,
    editedAt := none }

/-- C5 (witness): concrete two-day input — a separator before the first
message and before the day change, none between same-day neighbours; labels
follow the Today/Yesterday/full-format priority. -/
theorem claim_C5_groupMessagesByDate_witness :
    groupMessagesByDate 0 (fun _ => ("Monday, January 5, 1970").data)
        [wMsgA, wMsgB, wMsgC] =
      [ MessageItem.sep ⟨-1, 10⟩ ("Yesterday").data,
        MessageItem.msg wMsgA,
        MessageItem.msg wMsgB,
        MessageItem.sep ⟨0, 5⟩ ("Today").data,
        MessageItem.msg wMsgC ] ∧
    formatDateSeparator 0 (fun _ => ("F").data) ⟨5, 0⟩ = ("F").data := by
  constructor
  · have h := (claim_C5_groupMessagesByDate 0
      (fun _ => ("Monday, January 5, 1970").data) wMsgA
      [wMsgA, wMsgB, wMsgC]).2.2.1
    rw [h]
    decide
  · exact (claim_C5_groupMessagesByDate 0 (fun _ => ("F").data) wMsgA
      []).2.2.2.2.2 ⟨5, 0⟩ (by decide) (by decide)

/-! ## Search utilities (`src/utils/searchUtils.ts`)

`highlightSearchTerm` escapes every regex metacharacter of the trimmed term
(`escapeRegExp`) and runs `text.replace(new RegExp('(term)', 'gi'),
'<mark ...>$1</mark>')`.  An all-escaped pattern matches exactly the literal
term, so the regex replace is modelled as a literal, case-insensitive,
leftmost non-overlapping scan; the `i` flag's case folding is modelled with
`Char.toLower`, and `$1` re-emits the matched slice of the original text. -/

/-- `String.prototype.toLowerCase`. -/
def toLowerStr (s : Str) : Str :=
  s.map Char.toLower

/-- The opening half of the fixed highlight marker. -/
def markOpen : Str :=
  ("<mark class=\"bg-yellow-200 dark:bg-yellow-800\">").data

/-- The closing half of the fixed highlight marker. -/
def markClose : Str :=
  ("</mark>").data

/-- Does the pattern match case-insensitively at the head of the string? -/
def startsWithCI : Str → Str → Bool
  | [], _ => true
  | _ :: _, [] => false
  | p :: ps, c :: cs => (p.toLower == c.toLower) && startsWithCI ps cs

/-- The left-to-right scan of the global regex replace.  The counter is the
number of characters still covered by the match being emitted (they were
already produced inside the marker): while positive, characters are
consumed silently; at zero, a match starting at the current position is
wrapped and the scan resumes after it, and a non-match copies one
character. -/
def replaceGo (pat : Str) : Nat → Str → Str
  | _, [] => []
  | k + 1, _ :: rest => replaceGo pat k rest
  | 0, c :: rest =>
    if startsWithCI pat (c :: rest) then
      markOpen ++ (c :: rest).take pat.length ++ markClose ++
        replaceGo pat (pat.length - 1) rest
    else c :: replaceGo pat 0 rest

/-- `text.replace(/(pat)/gi, '<mark ...>$1</mark>')` for a literal
(escaped) pattern. -/
def replaceAllCI (pat text : Str) : Str :=
  replaceGo pat 0 text

/-- `highlightSearchTerm` from `src/utils/searchUtils.ts`: falsy (empty)
trimmed term or falsy text returns the text unchanged, otherwise wrap all
case-insensitive occurrences of the trimmed term. -/
def highlightSearchTerm (text searchTerm : Str) : Str :=
  if jsTrim searchTerm = [] ∨ text = [] then text
  else replaceAllCI (jsTrim searchTerm) text

/-- Spec-side description of "every case-insensitive occurrence of the term
within the text is wrapped in the fixed-format marker": scanning left to
right, a position where the term matches (case-insensitively) contributes
the matched slice wrapped in the marker and the scan continues right after
the occurrence; any other position contributes its character unchanged. -/
inductive WrapsCI (pat : Str) : Str → Str → Prop where
  | nil : WrapsCI pat [] []
  | skip (c : Char) (rest out : Str) :
      startsWithCI pat (c :: rest) = false →
      WrapsCI pat rest out →
      WrapsCI pat (c :: rest) (c :: out)
  | wrap (s out : Str) :
      startsWithCI pat s = true →
      WrapsCI pat (s.drop pat.length) out →
      WrapsCI pat s (markOpen ++ s.take pat.length ++ markClose ++ out)

/-- Consuming the skip counter is dropping that many characters. -/
theorem replaceGo_skip_eq_drop (pat : Str) :
    ∀ (k : Nat) (s : Str), replaceGo pat k s = replaceGo pat 0 (s.drop k) := by
  intro k
  induction k with
  | zero => intro s; rfl
  | succ k ih =>
    intro s
    cases s with
    | nil => rfl
    | cons c rest => simpa [replaceGo] using ih rest

/-- The scanning replace realises the spec-side wrapping relation for every
non-empty pattern. -/
theorem wrapsCI_replaceAllCI (pat : Str) (hp : pat ≠ []) (text : Str) :
    WrapsCI pat text (replaceAllCI pat text) := by
  obtain ⟨m, hm⟩ : ∃ m, pat.length = m + 1 := by
    cases hpl : pat.length with
    | zero => exact absurd (List.length_eq_zero.mp hpl) hp
    | succ m => exact ⟨m, rfl⟩
  suffices H : ∀ (n : Nat) (t : Str), t.length ≤ n →
      WrapsCI pat t (replaceGo pat 0 t) by
    exact H text.length text le_rfl
  intro n
  induction n with
  | zero =>
    intro t ht
    have hnil : t = [] := List.length_eq_zero.mp (Nat.le_zero.mp ht)
    subst hnil
    exact WrapsCI.nil
  | succ n ih =>
    intro t ht
    cases t with
    | nil => exact WrapsCI.nil
    | cons c rest =>
      by_cases h : startsWithCI pat (c :: rest) = true
      · have hgo : replaceGo pat 0 (c :: rest) =
            markOpen ++ (c :: rest).take pat.length ++ markClose ++
              replaceGo pat (pat.length - 1) rest := by
          simp [replaceGo, h]
        have hdrop : rest.drop (pat.length - 1) = (c :: rest).drop pat.length := by
          rw [hm]
          simp
        rw [hgo, replaceGo_skip_eq_drop, hdrop]
        refine WrapsCI.wrap _ _ h ?_
        apply ih
        have hlen : ((c :: rest).drop pat.length).length =
            rest.length + 1 - pat.length := by simp
        have hle : rest.length + 1 ≤ n + 1 := by simpa using ht
        rw [hlen, hm]
        omega
      · have h' : startsWithCI pat (c :: rest) = false := by simpa using h
        have hgo : replaceGo pat 0 (c :: rest) = c :: replaceGo pat 0 rest := by
          simp [replaceGo, h']
        have hle : rest.length ≤ n := by
          have := ht
          simp at this
          omega
        rw [hgo]
        exact WrapsCI.skip c rest _ h' (ih rest hle)

/-- `jsTrim` via Mathlib's right-dropWhile. -/
theorem jsTrim_eq_rdropWhile (s : Str) :
    jsTrim s = List.rdropWhile jsWhitespace (List.dropWhile jsWhitespace s) :=
  rfl

/-- A list already trimmed on the left stays so after trimming the right. -/
theorem dropWhile_rdropWhile_dropWhile (p : Char → Bool) (s : Str) :
    List.dropWhile p (List.rdropWhile p (List.dropWhile p s)) =
      List.rdropWhile p (List.dropWhile p s) := by
  have hAself : List.dropWhile p (List.dropWhile p s) = List.dropWhile p s :=
    List.dropWhile_idempotent p s
  obtain ⟨t, ht⟩ : List.rdropWhile p (List.dropWhile p s) <+: List.dropWhile p s :=
    List.rdropWhile_prefix p (List.dropWhile p s)
  cases hB : List.rdropWhile p (List.dropWhile p s) with
  | nil => rfl
  | cons b bt =>
    have hwb : p b = false := by
      by_contra hpos
      have hpb : p b = true := by
        cases hpb : p b with
        | true => rfl
        | false => exact absurd hpb hpos
      have hAcons : List.dropWhile p s = b :: (bt ++ t) := by
        rw [← ht, hB]
        rfl
      rw [hAcons, List.dropWhile_cons_of_pos hpb] at hAself
      have hle : (List.dropWhile p (bt ++ t)).length ≤ (bt ++ t).length :=
        (List.dropWhile_sublist p).length_le
      rw [hAself] at hle
      simp at hle
    simp [List.dropWhile_cons_of_neg, hwb]

/-- Trimming is idempotent. -/
theorem jsTrim_idem (s : Str) : jsTrim (jsTrim s) = jsTrim s := by
  rw [jsTrim_eq_rdropWhile s, jsTrim_eq_rdropWhile,
    dropWhile_rdropWhile_dropWhile, List.rdropWhile_idempotent]

/-- Trimming the empty string. -/
theorem jsTrim_nil : jsTrim [] = [] := rfl

/-- Case-sensitive starts-with, for `String.prototype.includes`. -/
def startsWithStr : Str → Str → Bool
  | [], _ => true
  | _ :: _, [] => false
  | n :: ns, h :: hs => (n == h) && startsWithStr ns hs

/-- `hay.includes(needle)`: the needle occurs somewhere in the hay. -/
def strIncludes : Str → Str → Bool
  | [], needle => needle.isEmpty
  | h :: t, needle => startsWithStr needle (h :: t) || strIncludes t needle

/-- C6 (counterexample).  The term `' foo '` occurs verbatim in the text
`'a foo b'`, but `highlightSearchTerm` does not wrap that occurrence of the
term: the term is trimmed first, so the output wraps the bare `foo` and the
marker around `' foo '` appears nowhere in it. -/
theorem claim_C6_counterexample :
    strIncludes ("a foo b").data (" foo ").data = true ∧
    highlightSearchTerm ("a foo b").data (" foo ").data =
      ("a ").data ++ markOpen ++ ("foo").data ++ markClose ++ (" b").data ∧
    strIncludes (highlightSearchTerm ("a foo b").data (" foo ").data)
      (markOpen ++ (" foo ").data ++ markClose) = false := by
  decide

/-- C6 (amended).  `highlightSearchTerm(text, '') = text` and
`highlightSearchTerm('', term) = ''`; a term that trims to empty returns
the text unchanged; and for non-empty text and a term that is non-empty
after trimming, every case-insensitive occurrence of the *trimmed* term in
the text is wrapped in the fixed marker (leftmost non-overlapping scan,
matching the escaped-literal `gi` regex, so metacharacters are matched
literally). -/
theorem claim_C6_highlight (text term : Str) :
    (jsTrim term = [] → highlightSearchTerm text term = text) ∧
    highlightSearchTerm [] term = [] ∧
    highlightSearchTerm text [] = text ∧
    (jsTrim term ≠ [] → text ≠ [] →
      WrapsCI (jsTrim term) text (highlightSearchTerm text term)) := by
  refine ⟨?_, ?_, ?_, ?_⟩
  · intro h
    simp [highlightSearchTerm, h]
  · simp [highlightSearchTerm]
  · simp [highlightSearchTerm, jsTrim_nil]
  · intro h1 h2
    rw [highlightSearchTerm, if_neg (not_or.mpr ⟨h1, h2⟩)]
    exact wrapsCI_replaceAllCI (jsTrim term) h1 text

/-- C6 (witness): case-insensitive matches of the trimmed term `f.o` are
wrapped, the dot is matched literally (`fAo` is untouched), and the empty
cases return the text. -/
theorem claim_C6_highlight_witness :
    WrapsCI (jsTrim (" f.o ").data) ("F.o zfAo f.O").data
      (highlightSearchTerm ("F.o zfAo f.O").data (" f.o ").data) ∧
    highlightSearchTerm ("F.o zfAo f.O").data (" f.o ").data =
      markOpen ++ ("F.o").data ++ markClose ++ (" zfAo ").data ++
        markOpen ++ ("f.O").data ++ markClose ∧
    highlightSearchTerm [] ("abc").data = [] ∧
    highlightSearchTerm ("abc").data [] = ("abc").data := by
  refine ⟨?_, by decide, ?_, ?_⟩
  · exact (claim_C6_highlight ("F.o zfAo f.O").data (" f.o ").data).2.2.2
      (by decide) (by decide)
  · exact (claim_C6_highlight [] ("abc").data).2.1
  · exact (claim_C6_highlight ("abc").data []).2.2.1

/-- C10.  `highlightSearchTerm` trims the search term before matching: a
term trimming to empty (in particular, whitespace-only) returns the text
unchanged; highlighting with a padded term equals highlighting with its
trimmed core; and on non-degenerate inputs the result is exactly the
replace-all of the trimmed core. -/
theorem claim_C10_highlight_trims_term (text term : Str) :
    (jsTrim term = [] → highlightSearchTerm text term = text) ∧
    highlightSearchTerm text term = highlightSearchTerm text (jsTrim term) ∧
    (jsTrim term ≠ [] → text ≠ [] →
      highlightSearchTerm text term = replaceAllCI (jsTrim term) text) := by
  refine ⟨?_, ?_, ?_⟩
  · intro h
    simp [highlightSearchTerm, h]
  · simp [highlightSearchTerm, jsTrim_idem]
  · intro h1 h2
    rw [highlightSearchTerm, if_neg (not_or.mpr ⟨h1, h2⟩)]

/-- C10 (witness): a whitespace-only term returns the text; the padded term
`' foo '` highlights the same as `foo`, wrapping exactly the trimmed
core. -/
theorem claim_C10_highlight_trims_term_witness :
    highlightSearchTerm ("x foo y").data ("   ").data = ("x foo y").data ∧
    highlightSearchTerm ("x foo y").data (" foo ").data =
      highlightSearchTerm ("x foo y").data ("foo").data ∧
    highlightSearchTerm ("x foo y").data (" foo ").data =
      ("x ").data ++ markOpen ++ ("foo").data ++ markClose ++ (" y").data := by
  refine ⟨?_, ?_, by decide⟩
  · exact (claim_C10_highlight_trims_term ("x foo y").data ("   ").data).1
      (by decide)
  · have h := (claim_C10_highlight_trims_term ("x foo y").data (" foo ").data).2.1
    rw [h]
    decide

/-! ## `getFilteredChannels` (`src/stores/useAppStore.ts`) -/

/-- `getFilteredChannels`: all channels for a whitespace-only query, else
the channels whose lowercased name or description contains the lowercased
query. -/
def getFilteredChannels (channels : List Channel) (searchQuery : Str) :
    List Channel :=
  if jsTrim searchQuery = [] then channels
  else
    let query := toLowerStr searchQuery
    channels.filter fun channel =>
      strIncludes (toLowerStr channel.name) query ||
        strIncludes (toLowerStr channel.description) query

/-- C7.  With an empty or whitespace-only query `getFilteredChannels`
returns all channels unchanged; otherwise the result is a sublist of the
input (original relative order preserved) whose members are exactly the
channels whose name or description contains the query case-insensitively. -/
theorem claim_C7_getFilteredChannels (channels : List Channel) (q : Str) :
    (jsTrim q = [] → getFilteredChannels channels q = channels) ∧
    (getFilteredChannels channels q).Sublist channels ∧
    (jsTrim q ≠ [] → ∀ ch,
      ch ∈ getFilteredChannels channels q ↔
        ch ∈ channels ∧
          (strIncludes (toLowerStr ch.name) (toLowerStr q) = true ∨
            strIncludes (toLowerStr ch.description) (toLowerStr q) = true)) := by
  refine ⟨?_, ?_, ?_⟩
  · intro h
    simp [getFilteredChannels, h]
  · by_cases h : jsTrim q = []
    · simp [getFilteredChannels, h]
    · simp only [getFilteredChannels, if_neg h]
      exact List.filter_sublist _
  · intro h ch
    simp [getFilteredChannels, h, List.mem_filter]

/-- The `tech` channel of the mock data, used by the C7 witness. -/
def techChannel : Channel :=
  { id := ("tech").data, name := ("Tech Talk").data,
    description := ("Technical discussions, programming, and development").data,
    kind := ("public").data, createdAt := ⟨19724, 52200000⟩, memberCount := 4 }

/-- C7 (witness): an empty query returns all mock channels; the query
`'Tech'` matches the `tech` channel case-insensitively. -/
theorem claim_C7_getFilteredChannels_witness :
    getFilteredChannels mockChannels [] = mockChannels ∧
    techChannel ∈ getFilteredChannels mockChannels ("Tech").data := by
  constructor
  · exact (claim_C7_getFilteredChannels mockChannels []).1 (by decide)
  · exact ((claim_C7_getFilteredChannels mockChannels ("Tech").data).2.2
      (by decide) techChannel).mpr ⟨by decide, by decide⟩

/-! ## `toggleTheme` (`src/stores/useAppStore.ts`) -/

/-- The `switch` inside `toggleTheme` (its `default` branch also yields
`'light'`, so the three listed cases are exhaustive). -/
def nextTheme : Theme → Theme
  | Theme.light => Theme.dark
  | Theme.dark => Theme.system
  | Theme.system => Theme.light

/-- `toggleTheme`: compute the next theme, persist it via
`StorageManager.setTheme`, and store it in the state. -/
def toggleTheme (s : AppState) (ls : LocalStorage) : AppState × LocalStorage :=
  let newTheme := nextTheme s.theme
  ({ s with theme := newTheme }, StorageManager.setTheme ls newTheme)

/-- Looking up the key just written in the raw store returns the value. -/
theorem storeGet_storeSet_self (items : List (Str × Str)) (k v : Str) :
    storeGet (storeSet items k v) k = some v := by
  induction items with
  | nil => simp [storeGet, storeSet, List.lookup]
  | cons hd tl ih =>
    obtain ⟨k', v'⟩ := hd
    by_cases h : k' = k
    · simp [storeGet, storeSet, h, List.lookup]
    · have hb : (k == k') = false := beq_eq_false_iff_ne.mpr (Ne.symm h)
      simpa [storeGet, storeSet, h, List.lookup, hb] using ih

/-- C8.  `toggleTheme` cycles light → dark → system → light, so three
applications restore the starting theme; each transition persists the new
theme string under the theme key when the store works; and when every store
access throws, the in-memory transition still happens and the store is left
as it was. -/
theorem claim_C8_toggleTheme (s : AppState) (ls : LocalStorage) :
    (toggleTheme
        (toggleTheme (toggleTheme s ls).1 (toggleTheme s ls).2).1
        (toggleTheme (toggleTheme s ls).1 (toggleTheme s ls).2).2).1.theme =
      s.theme ∧
    (toggleTheme s ls).1.theme = nextTheme s.theme ∧
    (ls.throws = false →
      storeGet (toggleTheme s ls).2.items themeKey =
        some (themeToStr (nextTheme s.theme))) ∧
    (ls.throws = true →
      (toggleTheme s ls).1.theme = nextTheme s.theme ∧
      (toggleTheme s ls).2 = ls) := by
  refine ⟨?_, rfl, ?_, ?_⟩
  · show nextTheme (nextTheme (nextTheme s.theme)) = s.theme
    cases s.theme <;> rfl
  · intro h
    have havail : StorageManager.isStorageAvailable ls = true := by
      simp [StorageManager.isStorageAvailable, lsSetItem, lsRemoveItem, h]
    show storeGet (StorageManager.setTheme ls (nextTheme s.theme)).items
        themeKey = some (themeToStr (nextTheme s.theme))
    simp only [StorageManager.setTheme, havail, Bool.true_eq_false, if_false,
      lsSetItem, h, Bool.false_eq_true]
    exact storeGet_storeSet_self ls.items themeKey (themeToStr (nextTheme s.theme))
  · intro h
    constructor
    · rfl
    · show StorageManager.setTheme ls (nextTheme s.theme) = ls
      have havail : StorageManager.isStorageAvailable ls = false := by
        simp [StorageManager.isStorageAvailable, lsSetItem, h]
      simp [StorageManager.setTheme, havail]

/-- C8 (witness): from `light`, a working store receives `'dark'` under the
theme key, and a throwing store still sees the in-memory flip to `'dark'`. -/
theorem claim_C8_toggleTheme_witness :
    storeGet (toggleTheme initialState ⟨[], false⟩).2.items themeKey =
      some ("dark").data ∧
    (toggleTheme initialState ⟨[], true⟩).1.theme = Theme.dark ∧
    (toggleTheme initialState ⟨[], true⟩).2 = ⟨[], true⟩ := by
  refine ⟨?_, ?_, ?_⟩
  · exact (claim_C8_toggleTheme initialState ⟨[], false⟩).2.2.1 rfl
  · exact ((claim_C8_toggleTheme initialState ⟨[], true⟩).2.2.2 rfl).1
  · exact ((claim_C8_toggleTheme initialState ⟨[], true⟩).2.2.2 rfl).2

/-! ## Error classification (`src/utils/errorHandling.ts`)

A JS `Error` is its `name` and `message`; `/word/i.test(message)` for the
plain-word patterns of the source is a case-insensitive substring test. -/

/-- A JavaScript `Error` as the classifiers observe it. -/
structure JSError where
  name : Str
  message : Str
deriving DecidableEq

/-- `/pat/i.test(msg)` for a pattern that is a plain lowercase word. -/
def patternTest (pat msg : Str) : Bool :=
  strIncludes (toLowerStr msg) (toLowerStr pat)

/-- The message patterns of `isNetworkError`. -/
def networkErrorPatterns : List Str :=
  [("network").data, ("fetch").data, ("timeout").data, ("connection").data,
    ("offline").data]

/-- The message patterns of `isValidationError`. -/
def validationErrorPatterns : List Str :=
  [("validation").data, ("invalid").data, ("required").data, ("format").data]

/-- The extra retryable message patterns of `isRetryableError`. -/
def retryablePatterns : List Str :=
  [("temporary").data, ("rate limit").data, ("service unavailable").data,
    ("internal server error").data]

/-- `isNetworkError`: name is `NetworkError` or `TypeError`, or the message
matches a network pattern. -/
def isNetworkError (e : JSError) : Bool :=
  (e.name == ("NetworkError").data || e.name == ("TypeError").data) ||
    networkErrorPatterns.any fun pat => patternTest pat e.message

/-- `isValidationError`: name is `ValidationError`, or the message matches
a validation pattern. -/
def isValidationError (e : JSError) : Bool :=
  (e.name == ("ValidationError").data) ||
    validationErrorPatterns.any fun pat => patternTest pat e.message

/-- `isRetryableError`: never for validation errors; always for network
errors; otherwise only for the retryable message patterns. -/
def isRetryableError (e : JSError) : Bool :=
  if isValidationError e then false
  else if isNetworkError e then true
  else retryablePatterns.any fun pat => patternTest pat e.message

/-- C9.  Any error named `TypeError` is classified as a network error
regardless of its message; if additionally its name is not
`ValidationError` (automatic here) and its message matches none of the
validation patterns, it is retryable. -/
theorem claim_C9_typeError_retryable (e : JSError) :
    (e.name = ("TypeError").data → isNetworkError e = true) ∧
    (e.name = ("TypeError").data →
      e.name ≠ ("ValidationError").data →
      (∀ pat ∈ validationErrorPatterns, patternTest pat e.message = false) →
      isRetryableError e = true) := by
  constructor
  · intro h
    simp [isNetworkError, h]
  · intro h _ hpats
    have hval : isValidationError e = false := by
      rw [isValidationError, h]
      simp only [Bool.or_eq_false_iff]
      refine ⟨by decide, ?_⟩
      rw [List.any_eq_false]
      intro pat hpat
      simp [hpats pat hpat]
    have hnet : isNetworkError e = true := by
      simp [isNetworkError, h]
    simp [isRetryableError, hval, hnet]

/-- C9 (witness): the error `TypeError: boom` is a retryable network
error. -/
theorem claim_C9_typeError_retryable_witness :
    isNetworkError ⟨("TypeError").data, ("boom").data⟩ = true ∧
    isRetryableError ⟨("TypeError").data, ("boom").data⟩ = true := by
  constructor
  · exact (claim_C9_typeError_retryable ⟨("TypeError").data, ("boom").data⟩).1
      (by decide)
  · exact (claim_C9_typeError_retryable ⟨("TypeError").data, ("boom").data⟩).2
      (by decide) (by decide) (by decide)

end OpenBoard
